import Mathlib

/-!
# Verification of the `monkey` bytecode virtual machine (`src/vm/mod.rs`)

A shallow embedding of the stack-based VM: a tagged `Object` value type,
a `VM` state (instruction bytes, constant pool, value stack, global slots,
stack pointer), a single fetch-decode-execute step `stepAt`, and a
fuel-indexed driver `runFrom` mirroring the while loop of `VM::run`.

Rust panics (type mismatches, unknown opcodes, array index out of bounds,
integer-division errors) are modelled as `Fault` results; `i64` arithmetic
is modelled on `Int` with explicit twos-complement wrapping where the
release-mode Rust semantics wraps.
-/

namespace Monkey

/-- Modelled from the spec: `crate::eval::Object` is outside `src/`.
Per §3 the Value type is a tagged union `Integer(signed 64-bit)` /
`Boolean`; the source comment in `VM::new` additionally shows an
`Object::Null` variant (the logical content of zeroed slots). -/
inductive Object where
  | Integer : Int → Object
  | Boolean : Bool → Object
  | Null : Object
deriving DecidableEq, Repr

/-- Source constant `STACK_SIZE : usize = 2048`. -/
def STACK_SIZE : Nat := 2048

/-- Source constant `GLOBAL_SIZE : usize = 2048`. -/
def GLOBAL_SIZE : Nat := 2048

/-- Modelled from the spec: `crate::code::convert_two_u8s_be_to_usize` is
outside `src/`. Per §3 operands are fixed-width big-endian unsigned
integers, so the two bytes combine as `b1 * 256 + b2`. -/
def convert_two_u8s_be_to_usize (b1 b2 : Nat) : Nat := b1 * 256 + b2

/-- Source `struct ByteCode`, the compiler output handed to `VM::new`. -/
structure ByteCode where
  instructions : List Nat
  constants : List Object

/-- Source `struct VM`. The fixed-capacity arrays `stack` and `globals` are
modelled as total maps `Nat → Object`; the index discipline (`sp`,
bounds checks in `push`/`pop`/global access) keeps all reads within
`STACK_SIZE`/`GLOBAL_SIZE`, mirroring the Rust arrays. -/
structure VM where
  instructions : List Nat
  constants : List Object
  stack : Nat → Object
  globals : Nat → Object
  sp : Nat

/-- A Rust panic or out-of-bounds array access inside the run loop. -/
inductive Fault where
  | typeMismatch
  | unknownOpcode
  | stackOverflow
  | stackUnderflow
  | indexOutOfBounds
  | divisionError
deriving DecidableEq, Repr

/-- Constructor `VM::new`: zeroed stack and globals (logically `Object::Null` per the
source comment), `sp = 0`. -/
def VM.new (byte_code : ByteCode) : VM :=
  { instructions := byte_code.instructions
    constants := byte_code.constants
    stack := fun _ => Object.Null
    globals := fun _ => Object.Null
    sp := 0 }

/-- Primitive `VM::push`: writes `stack[sp]` then increments `sp`. The Rust code
"ignores the potential stack overflow": writing at `sp ≥ STACK_SIZE` is an
out-of-bounds array index, i.e. a panic, modelled as a fault. -/
def VM.push (vm : VM) (obj : Object) : Except Fault VM :=
  if vm.sp < STACK_SIZE then
    Except.ok { vm with stack := Function.update vm.stack vm.sp obj, sp := vm.sp + 1 }
  else
    Except.error Fault.stackOverflow

/-- Primitive `VM::pop`: reads (a clone of) `stack[sp - 1]` then decrements `sp`.
`sp = 0` underflows the `usize` subtraction (panic); `sp - 1 ≥ STACK_SIZE`
is an out-of-bounds index (panic). The stack contents are not modified. -/
def VM.pop (vm : VM) : Except Fault (Object × VM) :=
  if vm.sp = 0 then
    Except.error Fault.stackUnderflow
  else if STACK_SIZE < vm.sp then
    Except.error Fault.indexOutOfBounds
  else
    Except.ok (vm.stack (vm.sp - 1), { vm with sp := vm.sp - 1 })

/-- Accessor `VM::last_popped`: reads `stack[sp]` directly (out of bounds when
`sp ≥ STACK_SIZE`, which cannot follow a successful pop). -/
def VM.last_popped (vm : VM) : Option Object :=
  if vm.sp < STACK_SIZE then some (vm.stack vm.sp) else none

/-- Indexing `self.instructions[i]`, with the Rust panic on out-of-bounds. -/
def readByte (instructions : List Nat) (i : Nat) : Except Fault Nat :=
  match instructions.get? i with
  | some b => Except.ok b
  | none => Except.error Fault.indexOutOfBounds

/-- Reads the 2-byte big-endian operand at `ip`, `ip + 1`. -/
def readOperand (instructions : List Nat) (ip : Nat) : Except Fault Nat := do
  let b1 ← readByte instructions ip
  let b2 ← readByte instructions (ip + 1)
  Except.ok (convert_two_u8s_be_to_usize b1 b2)

/-- Signed 64-bit twos-complement wrapping, the release-mode result of an
overflowing `i64` operation. For in-range results it is the identity. -/
def wrap64 (n : Int) : Int := (n + 2 ^ 63) % 2 ^ 64 - 2 ^ 63

/-- Rust `i64` division truncates toward zero; it panics when the divisor
is zero and on the overflowing case `i64::MIN / -1`. -/
def i64Div (left right : Int) : Except Fault Int :=
  if right = 0 then Except.error Fault.divisionError
  else if left = -(2 ^ 63) ∧ right = -1 then Except.error Fault.divisionError
  else Except.ok (Int.tdiv left right)

/-- One dispatch arm of the `match` in `VM::run`: executes opcode `op` whose
byte was read at `ip - 1`, with `ip` already advanced past the opcode.
Returns the updated VM and the next `ip`. -/
def VM.execOp (vm : VM) (op : Nat) (ip : Nat) : Except Fault (VM × Nat) :=
  match op with
  | 0x01 => do -- OpConstant
      let const_index ← readOperand vm.instructions ip
      match vm.constants.get? const_index with
      | some c => do
          let vm ← vm.push c
          Except.ok (vm, ip + 2)
      | none => Except.error Fault.indexOutOfBounds
  | 0x02 => do -- OpPop
      let (_, vm) ← vm.pop
      Except.ok (vm, ip)
  | 0x03 => do -- OpAdd
      let (right, vm) ← vm.pop
      let (left, vm) ← vm.pop
      match left, right with
      | Object.Integer l, Object.Integer r => do
          let vm ← vm.push (Object.Integer (wrap64 (l + r)))
          Except.ok (vm, ip)
      | _, _ => Except.error Fault.typeMismatch
  | 0x04 => do -- OpSub
      let (right, vm) ← vm.pop
      let (left, vm) ← vm.pop
      match left, right with
      | Object.Integer l, Object.Integer r => do
          let vm ← vm.push (Object.Integer (wrap64 (l - r)))
          Except.ok (vm, ip)
      | _, _ => Except.error Fault.typeMismatch
  | 0x05 => do -- OpMul
      let (right, vm) ← vm.pop
      let (left, vm) ← vm.pop
      match left, right with
      | Object.Integer l, Object.Integer r => do
          let vm ← vm.push (Object.Integer (wrap64 (l * r)))
          Except.ok (vm, ip)
      | _, _ => Except.error Fault.typeMismatch
  | 0x06 => do -- OpDiv
      let (right, vm) ← vm.pop
      let (left, vm) ← vm.pop
      match left, right with
      | Object.Integer l, Object.Integer r => do
          let q ← i64Div l r
          let vm ← vm.push (Object.Integer q)
          Except.ok (vm, ip)
      | _, _ => Except.error Fault.typeMismatch
  | 0x07 => do -- OpTrue
      let vm ← vm.push (Object.Boolean true)
      Except.ok (vm, ip)
  | 0x08 => do -- OpFalse
      let vm ← vm.push (Object.Boolean false)
      Except.ok (vm, ip)
  | 0x09 => do -- OpEquals
      let (right, vm) ← vm.pop
      let (left, vm) ← vm.pop
      match left, right with
      | Object.Integer l, Object.Integer r => do
          let vm ← vm.push (Object.Boolean (l == r))
          Except.ok (vm, ip)
      | Object.Boolean l, Object.Boolean r => do
          let vm ← vm.push (Object.Boolean (l == r))
          Except.ok (vm, ip)
      | _, _ => Except.error Fault.typeMismatch
  | 0x0A => do -- OpNotEquals
      let (right, vm) ← vm.pop
      let (left, vm) ← vm.pop
      match left, right with
      | Object.Integer l, Object.Integer r => do
          let vm ← vm.push (Object.Boolean (l != r))
          Except.ok (vm, ip)
      | Object.Boolean l, Object.Boolean r => do
          let vm ← vm.push (Object.Boolean (l != r))
          Except.ok (vm, ip)
      | _, _ => Except.error Fault.typeMismatch
  | 0x0B => do -- OpGreaterThan
      let (right, vm) ← vm.pop
      let (left, vm) ← vm.pop
      match left, right with
      | Object.Integer l, Object.Integer r => do
          let vm ← vm.push (Object.Boolean (decide (l > r)))
          Except.ok (vm, ip)
      | _, _ => Except.error Fault.typeMismatch
  | 0x0C => do -- OpMinus
      let (v, vm) ← vm.pop
      match v with
      | Object.Integer num => do
          let vm ← vm.push (Object.Integer (wrap64 (-num)))
          Except.ok (vm, ip)
      | _ => Except.error Fault.typeMismatch
  | 0x0D => do -- OpBang
      let (v, vm) ← vm.pop
      match v with
      | Object.Boolean b => do
          let vm ← vm.push (Object.Boolean (!b))
          Except.ok (vm, ip)
      | _ => Except.error Fault.typeMismatch
  | 0x0E => do -- OpJumpNotTrue
      let (v, vm) ← vm.pop
      match v with
      | Object.Boolean true => Except.ok (vm, ip + 2)
      | Object.Boolean false => do
          let jump_address ← readOperand vm.instructions ip
          Except.ok (vm, jump_address)
      | _ => Except.error Fault.typeMismatch
  | 0x0F => do -- OpJump
      let jump_address ← readOperand vm.instructions ip
      Except.ok (vm, jump_address)
  | 0x10 => do -- OpSetGlobal
      let global_index ← readOperand vm.instructions ip
      let (value, vm) ← vm.pop
      if global_index < GLOBAL_SIZE then
        Except.ok ({ vm with globals := Function.update vm.globals global_index value }, ip + 2)
      else
        Except.error Fault.indexOutOfBounds
  | 0x11 => do -- OpGetGlobal
      let global_index ← readOperand vm.instructions ip
      if global_index < GLOBAL_SIZE then do
        let vm ← vm.push (vm.globals global_index)
        Except.ok (vm, ip + 2)
      else
        Except.error Fault.indexOutOfBounds
  | _ => Except.error Fault.unknownOpcode

/-- One iteration of the while loop of `VM::run` at `instruction_address = ip`:
read the opcode byte, advance `ip` by 1, dispatch. -/
def VM.stepAt (vm : VM) (ip : Nat) : Except Fault (VM × Nat) := do
  let op ← readByte vm.instructions ip
  vm.execOp op (ip + 1)

/-- Result of driving the loop to completion: normal return (`ip` reached
the stream length) or a panic. -/
inductive Outcome where
  | halted : VM → Outcome
  | faulted : Fault → Outcome

/-- The while loop of `VM::run` from state `(vm, ip)`, with explicit fuel;
`none` means the fuel ran out before the loop finished. -/
def runFrom : Nat → VM → Nat → Option Outcome
  | 0, _, _ => none
  | fuel + 1, vm, ip =>
      if ip < vm.instructions.length then
        match vm.stepAt ip with
        | Except.ok (vm', ip') => runFrom fuel vm' ip'
        | Except.error f => some (Outcome.faulted f)
      else
        some (Outcome.halted vm)

/-- Method `VM::run`: the loop starts with `ip = 0`. -/
def VM.run (vm : VM) (fuel : Nat) : Option Outcome := runFrom fuel vm 0

/-- The `last_popped` observation of a finished run (`none` for a fault
or fuel exhaustion). -/
def finalLastPopped (r : Option Outcome) : Option Object :=
  match r with
  | some (Outcome.halted vm) => vm.last_popped
  | _ => none

/-- The fault of a finished run, when it panicked. -/
def finalFault (r : Option Outcome) : Option Fault :=
  match r with
  | some (Outcome.faulted f) => some f
  | _ => none

/-- Operand width in bytes for each opcode, per the opcode table of the spec:
`Constant`, `JumpNotTrue`, `Jump`, `SetGlobal`, `GetGlobal` carry a 2-byte
operand; all other opcodes have none. -/
def operandWidth (op : Nat) : Nat :=
  match op with
  | 0x01 => 2 | 0x0E => 2 | 0x0F => 2 | 0x10 => 2 | 0x11 => 2
  | _ => 0

/-- Representability of `n` as a signed 64-bit integer (a Rust `i64`). -/
def in64 (n : Int) : Prop := -(2 ^ 63) ≤ n ∧ n < 2 ^ 63

/-- The top of stack of a finished run (`none` for a fault, fuel
exhaustion, or an empty stack). -/
def finalTop (r : Option Outcome) : Option Object :=
  match r with
  | some (Outcome.halted vm) => if vm.sp = 0 then none else some (vm.stack (vm.sp - 1))
  | _ => none

/-- The list of instruction addresses at which the run loop reads an
opcode, in execution order, for the first `fuel` iterations. -/
def execTrace : Nat → VM → Nat → List Nat
  | 0, _, _ => []
  | fuel + 1, vm, ip =>
      if ip < vm.instructions.length then
        match vm.stepAt ip with
        | Except.ok (vm', ip') => ip :: execTrace fuel vm' ip'
        | Except.error _ => [ip]
      else []

/-- The instruction at address `ip` is a `SetGlobal` whose 2-byte operand
decodes to slot `i`. -/
def setsGlobal (vm : VM) (ip : Nat) (i : Nat) : Prop :=
  vm.instructions.get? ip = some 0x10 ∧ readOperand vm.instructions (ip + 1) = Except.ok i

/-- Execution segments: `(vm, ip)` reaches `(vm', ip')` by zero or more
successful steps, none of which executes a `SetGlobal` to slot `i`. -/
inductive ReachesAvoiding (i : Nat) : VM → Nat → VM → Nat → Prop where
  | refl (vm : VM) (ip : Nat) : ReachesAvoiding i vm ip vm ip
  | step {vm : VM} {ip : Nat} {vmMid : VM} {ipMid : Nat} {vm' : VM} {ip' : Nat} :
      vm.stepAt ip = Except.ok (vmMid, ipMid) → ¬ setsGlobal vm ip i →
      ReachesAvoiding i vmMid ipMid vm' ip' → ReachesAvoiding i vm ip vm' ip'

/-- The compiled form of `Constant(a); Constant(b); <opc>; Pop` — the two
constants pushed left-first, the binary opcode `opc`, and the
statement-terminating `Pop` that parks the result in the `last_popped`
slot. -/
def arithProg (opc : Nat) (a b : Int) : ByteCode :=
  ⟨[0x01, 0, 0, 0x01, 0, 1, opc, 0x02], [Object.Integer a, Object.Integer b]⟩

/-- The compiled form of `Constant(a); Constant(b); <opc>` without the
trailing `Pop` — the literal instruction sequence of the claim. -/
def arithProgNoPop (opc : Nat) (a b : Int) : ByteCode :=
  ⟨[0x01, 0, 0, 0x01, 0, 1, opc], [Object.Integer a, Object.Integer b]⟩

/-! ## Basic lemmas about the monadic plumbing and the push/pop primitives -/

theorem ok_bind {ε α β : Type} (a : α) (f : α → Except ε β) :
    (Except.ok (ε := ε) a >>= f) = f a := rfl

theorem error_bind {ε α β : Type} (e : ε) (f : α → Except ε β) :
    (Except.error (α := α) e >>= f) = Except.error (α := β) e := rfl

theorem bind_eq_ok {ε α β : Type} {x : Except ε α} {f : α → Except ε β} {b : β} :
    (x >>= f) = Except.ok b ↔ ∃ a, x = Except.ok a ∧ f a = Except.ok b := by
  cases x <;> simp [Except.bind, Bind.bind]

theorem VM.pop_eq {vm : VM} (h1 : vm.sp ≠ 0) (h2 : ¬ STACK_SIZE < vm.sp) :
    vm.pop = Except.ok (vm.stack (vm.sp - 1), { vm with sp := vm.sp - 1 }) := by
  unfold VM.pop; rw [if_neg h1, if_neg h2]

theorem VM.push_eq {vm : VM} (obj : Object) (h : vm.sp < STACK_SIZE) :
    vm.push obj = Except.ok { vm with stack := Function.update vm.stack vm.sp obj, sp := vm.sp + 1 } := by
  unfold VM.push; rw [if_pos h]

theorem VM.stepAt_eq {vm : VM} {ip op : Nat} (h : vm.instructions.get? ip = some op) :
    vm.stepAt ip = vm.execOp op (ip + 1) := by
  unfold VM.stepAt readByte; rw [h]; rfl

theorem pop_fields {vm : VM} {x : Object × VM} (h : vm.pop = Except.ok x) :
    x.2.instructions = vm.instructions ∧ x.2.constants = vm.constants ∧
      x.2.globals = vm.globals ∧ x.2.sp = vm.sp - 1 ∧ x.2.stack = vm.stack ∧
      x.1 = vm.stack (vm.sp - 1) := by
  unfold VM.pop at h
  split at h
  · exact Except.noConfusion h
  split at h
  · exact Except.noConfusion h
  · cases h; exact ⟨rfl, rfl, rfl, rfl, rfl, rfl⟩

theorem push_fields {vm : VM} {obj : Object} {vm' : VM} (h : vm.push obj = Except.ok vm') :
    vm'.instructions = vm.instructions ∧ vm'.constants = vm.constants ∧
      vm'.globals = vm.globals ∧ vm'.sp = vm.sp + 1 ∧
      vm'.stack = Function.update vm.stack vm.sp obj := by
  unfold VM.push at h
  split at h
  · cases h; exact ⟨rfl, rfl, rfl, rfl, rfl⟩
  · exact Except.noConfusion h

/-! ## Arithmetic helper lemmas -/

theorem wrap64_eq_self {n : Int} (h : in64 n) : wrap64 n = n := by
  unfold wrap64 in64 at *; omega

theorem i64Div_eq {a b : Int} (h0 : b ≠ 0) (h1 : ¬(a = -(2 ^ 63) ∧ b = -1)) :
    i64Div a b = Except.ok (Int.tdiv a b) := by
  unfold i64Div; rw [if_neg h0, if_neg h1]

/-! ## Shape lemmas: inverting a successful `execOp` -/

theorem binOp_inv {vm vm' : VM} {ip ip' : Nat} {g : Int → Int → Object}
    (h : (do
        let (right, vm) ← vm.pop
        let (left, vm) ← vm.pop
        match left, right with
        | Object.Integer l, Object.Integer r => do
            let vm ← vm.push (g l r)
            Except.ok (vm, ip)
        | _, _ => Except.error Fault.typeMismatch) = Except.ok (vm', ip')) :
    vm'.instructions = vm.instructions ∧ vm'.constants = vm.constants ∧
      vm'.globals = vm.globals ∧ ip' = ip := by
  simp only [bind_eq_ok] at h
  obtain ⟨⟨r, vm1⟩, h1, h⟩ := h
  simp only [bind_eq_ok] at h
  obtain ⟨⟨l, vm2⟩, h2, h⟩ := h
  split at h
  · simp only [bind_eq_ok] at h
    obtain ⟨vm3, h3, h⟩ := h
    cases h
    obtain ⟨e1, e2, e3, -, -, -⟩ := pop_fields h1
    obtain ⟨f1, f2, f3, -, -, -⟩ := pop_fields h2
    obtain ⟨g1, g2, g3, -, -⟩ := push_fields h3
    exact ⟨g1.trans (f1.trans e1), g2.trans (f2.trans e2), g3.trans (f3.trans e3), rfl⟩
  · exact Except.noConfusion h

theorem divOp_inv {vm vm' : VM} {ip ip' : Nat}
    (h : (do
        let (right, vm) ← vm.pop
        let (left, vm) ← vm.pop
        match left, right with
        | Object.Integer l, Object.Integer r => do
            let q ← i64Div l r
            let vm ← vm.push (Object.Integer q)
            Except.ok (vm, ip)
        | _, _ => Except.error Fault.typeMismatch) = Except.ok (vm', ip')) :
    vm'.instructions = vm.instructions ∧ vm'.constants = vm.constants ∧
      vm'.globals = vm.globals ∧ ip' = ip := by
  simp only [bind_eq_ok] at h
  obtain ⟨⟨r, vm1⟩, h1, h⟩ := h
  simp only [bind_eq_ok] at h
  obtain ⟨⟨l, vm2⟩, h2, h⟩ := h
  split at h
  · simp only [bind_eq_ok] at h
    obtain ⟨q, hq, vm3, h3, h⟩ := h
    cases h
    obtain ⟨e1, e2, e3, -, -, -⟩ := pop_fields h1
    obtain ⟨f1, f2, f3, -, -, -⟩ := pop_fields h2
    obtain ⟨g1, g2, g3, -, -⟩ := push_fields h3
    exact ⟨g1.trans (f1.trans e1), g2.trans (f2.trans e2), g3.trans (f3.trans e3), rfl⟩
  · exact Except.noConfusion h

theorem cmpOp_inv {vm vm' : VM} {ip ip' : Nat} {gI : Int → Int → Object} {gB : Bool → Bool → Object}
    (h : (do
        let (right, vm) ← vm.pop
        let (left, vm) ← vm.pop
        match left, right with
        | Object.Integer l, Object.Integer r => do
            let vm ← vm.push (gI l r)
            Except.ok (vm, ip)
        | Object.Boolean l, Object.Boolean r => do
            let vm ← vm.push (gB l r)
            Except.ok (vm, ip)
        | _, _ => Except.error Fault.typeMismatch) = Except.ok (vm', ip')) :
    vm'.instructions = vm.instructions ∧ vm'.constants = vm.constants ∧
      vm'.globals = vm.globals ∧ ip' = ip := by
  simp only [bind_eq_ok] at h
  obtain ⟨⟨r, vm1⟩, h1, h⟩ := h
  simp only [bind_eq_ok] at h
  obtain ⟨⟨l, vm2⟩, h2, h⟩ := h
  split at h
  case _ =>
    simp only [bind_eq_ok] at h
    obtain ⟨vm3, h3, h⟩ := h
    cases h
    obtain ⟨e1, e2, e3, -, -, -⟩ := pop_fields h1
    obtain ⟨f1, f2, f3, -, -, -⟩ := pop_fields h2
    obtain ⟨g1, g2, g3, -, -⟩ := push_fields h3
    exact ⟨g1.trans (f1.trans e1), g2.trans (f2.trans e2), g3.trans (f3.trans e3), rfl⟩
  case _ =>
    simp only [bind_eq_ok] at h
    obtain ⟨vm3, h3, h⟩ := h
    cases h
    obtain ⟨e1, e2, e3, -, -, -⟩ := pop_fields h1
    obtain ⟨f1, f2, f3, -, -, -⟩ := pop_fields h2
    obtain ⟨g1, g2, g3, -, -⟩ := push_fields h3
    exact ⟨g1.trans (f1.trans e1), g2.trans (f2.trans e2), g3.trans (f3.trans e3), rfl⟩
  case _ => exact Except.noConfusion h

theorem unaryIntOp_inv {vm vm' : VM} {ip ip' : Nat} {g : Int → Object}
    (h : (do
        let (v, vm) ← vm.pop
        match v with
        | Object.Integer num => do
            let vm ← vm.push (g num)
            Except.ok (vm, ip)
        | _ => Except.error Fault.typeMismatch) = Except.ok (vm', ip')) :
    vm'.instructions = vm.instructions ∧ vm'.constants = vm.constants ∧
      vm'.globals = vm.globals ∧ ip' = ip := by
  simp only [bind_eq_ok] at h
  obtain ⟨⟨v, vm1⟩, h1, h⟩ := h
  split at h
  · simp only [bind_eq_ok] at h
    obtain ⟨vm2, h2, h⟩ := h
    cases h
    obtain ⟨e1, e2, e3, -, -, -⟩ := pop_fields h1
    obtain ⟨g1, g2, g3, -, -⟩ := push_fields h2
    exact ⟨g1.trans e1, g2.trans e2, g3.trans e3, rfl⟩
  · exact Except.noConfusion h

theorem unaryBoolOp_inv {vm vm' : VM} {ip ip' : Nat} {g : Bool → Object}
    (h : (do
        let (v, vm) ← vm.pop
        match v with
        | Object.Boolean b => do
            let vm ← vm.push (g b)
            Except.ok (vm, ip)
        | _ => Except.error Fault.typeMismatch) = Except.ok (vm', ip')) :
    vm'.instructions = vm.instructions ∧ vm'.constants = vm.constants ∧
      vm'.globals = vm.globals ∧ ip' = ip := by
  simp only [bind_eq_ok] at h
  obtain ⟨⟨v, vm1⟩, h1, h⟩ := h
  split at h
  · simp only [bind_eq_ok] at h
    obtain ⟨vm2, h2, h⟩ := h
    cases h
    obtain ⟨e1, e2, e3, -, -, -⟩ := pop_fields h1
    obtain ⟨g1, g2, g3, -, -⟩ := push_fields h2
    exact ⟨g1.trans e1, g2.trans e2, g3.trans e3, rfl⟩
  · exact Except.noConfusion h

theorem execOp_ok_inv {vm vm' : VM} {op ip ip' : Nat}
    (h : vm.execOp op ip = Except.ok (vm', ip')) :
    vm'.instructions = vm.instructions ∧ vm'.constants = vm.constants ∧
      (op ≠ 0x0E → op ≠ 0x0F → ip' = ip + operandWidth op) ∧
      (∀ i, (op = 0x10 → readOperand vm.instructions ip ≠ Except.ok i) →
        vm'.globals i = vm.globals i) := by
  unfold VM.execOp at h
  split at h
  · -- 0x01 OpConstant
    simp only [bind_eq_ok] at h
    obtain ⟨ci, hro, h⟩ := h
    split at h
    · simp only [bind_eq_ok] at h
      obtain ⟨vm1, hp, h⟩ := h
      cases h
      obtain ⟨g1, g2, g3, -, -⟩ := push_fields hp
      exact ⟨g1, g2, fun _ _ => rfl, fun i _ => congrFun g3 i⟩
    · exact Except.noConfusion h
  · -- 0x02 OpPop
    simp only [bind_eq_ok] at h
    obtain ⟨⟨v, vm1⟩, h1, h⟩ := h
    cases h
    obtain ⟨e1, e2, e3, -, -, -⟩ := pop_fields h1
    exact ⟨e1, e2, fun _ _ => rfl, fun i _ => congrFun e3 i⟩
  · -- 0x03 OpAdd
    obtain ⟨e1, e2, e3, e4⟩ := binOp_inv h
    exact ⟨e1, e2, fun _ _ => e4, fun i _ => congrFun e3 i⟩
  · -- 0x04 OpSub
    obtain ⟨e1, e2, e3, e4⟩ := binOp_inv h
    exact ⟨e1, e2, fun _ _ => e4, fun i _ => congrFun e3 i⟩
  · -- 0x05 OpMul
    obtain ⟨e1, e2, e3, e4⟩ := binOp_inv h
    exact ⟨e1, e2, fun _ _ => e4, fun i _ => congrFun e3 i⟩
  · -- 0x06 OpDiv
    obtain ⟨e1, e2, e3, e4⟩ := divOp_inv h
    exact ⟨e1, e2, fun _ _ => e4, fun i _ => congrFun e3 i⟩
  · -- 0x07 OpTrue
    simp only [bind_eq_ok] at h
    obtain ⟨vm1, hp, h⟩ := h
    cases h
    obtain ⟨g1, g2, g3, -, -⟩ := push_fields hp
    exact ⟨g1, g2, fun _ _ => rfl, fun i _ => congrFun g3 i⟩
  · -- 0x08 OpFalse
    simp only [bind_eq_ok] at h
    obtain ⟨vm1, hp, h⟩ := h
    cases h
    obtain ⟨g1, g2, g3, -, -⟩ := push_fields hp
    exact ⟨g1, g2, fun _ _ => rfl, fun i _ => congrFun g3 i⟩
  · -- 0x09 OpEquals
    obtain ⟨e1, e2, e3, e4⟩ := cmpOp_inv h
    exact ⟨e1, e2, fun _ _ => e4, fun i _ => congrFun e3 i⟩
  · -- 0x0A OpNotEquals
    obtain ⟨e1, e2, e3, e4⟩ := cmpOp_inv h
    exact ⟨e1, e2, fun _ _ => e4, fun i _ => congrFun e3 i⟩
  · -- 0x0B OpGreaterThan
    obtain ⟨e1, e2, e3, e4⟩ := binOp_inv h
    exact ⟨e1, e2, fun _ _ => e4, fun i _ => congrFun e3 i⟩
  · -- 0x0C OpMinus
    obtain ⟨e1, e2, e3, e4⟩ := unaryIntOp_inv h
    exact ⟨e1, e2, fun _ _ => e4, fun i _ => congrFun e3 i⟩
  · -- 0x0D OpBang
    obtain ⟨e1, e2, e3, e4⟩ := unaryBoolOp_inv h
    exact ⟨e1, e2, fun _ _ => e4, fun i _ => congrFun e3 i⟩
  · -- 0x0E OpJumpNotTrue
    simp only [bind_eq_ok] at h
    obtain ⟨⟨v, vm1⟩, h1, h⟩ := h
    obtain ⟨e1, e2, e3, -, -, -⟩ := pop_fields h1
    split at h
    · cases h
      exact ⟨e1, e2, fun hne _ => absurd rfl hne, fun i _ => congrFun e3 i⟩
    · simp only [bind_eq_ok] at h
      obtain ⟨t, hro, h⟩ := h
      cases h
      exact ⟨e1, e2, fun hne _ => absurd rfl hne, fun i _ => congrFun e3 i⟩
    · exact Except.noConfusion h
  · -- 0x0F OpJump
    simp only [bind_eq_ok] at h
    obtain ⟨t, hro, h⟩ := h
    cases h
    exact ⟨rfl, rfl, fun _ hne => absurd rfl hne, fun i _ => rfl⟩
  · -- 0x10 OpSetGlobal
    simp only [bind_eq_ok] at h
    obtain ⟨gi, hro, ⟨v, vm1⟩, h1, h⟩ := h
    split at h
    · cases h
      obtain ⟨e1, e2, e3, -, -, -⟩ := pop_fields h1
      refine ⟨e1, e2, fun _ _ => rfl, fun i hi => ?_⟩
      have hne : gi ≠ i := fun e => (hi rfl) (e ▸ hro)
      calc Function.update vm1.globals gi v i = vm1.globals i :=
            Function.update_noteq (Ne.symm hne) v vm1.globals
        _ = vm.globals i := congrFun e3 i
    · exact Except.noConfusion h
  · -- 0x11 OpGetGlobal
    simp only [bind_eq_ok] at h
    obtain ⟨gi, hro, h⟩ := h
    split at h
    · simp only [bind_eq_ok] at h
      obtain ⟨vm1, hp, h⟩ := h
      cases h
      obtain ⟨g1, g2, g3, -, -⟩ := push_fields hp
      exact ⟨g1, g2, fun _ _ => rfl, fun i _ => congrFun g3 i⟩
    · exact Except.noConfusion h
  · -- unknown opcode
    exact Except.noConfusion h

theorem stepAt_ok_inv {vm vm' : VM} {ip ip' : Nat}
    (h : vm.stepAt ip = Except.ok (vm', ip')) :
    vm'.instructions = vm.instructions ∧ vm'.constants = vm.constants ∧
      ∃ op, vm.instructions.get? ip = some op ∧
        (op ≠ 0x0E → op ≠ 0x0F → ip' = ip + 1 + operandWidth op) ∧
        (∀ i, (op = 0x10 → readOperand vm.instructions (ip + 1) ≠ Except.ok i) →
          vm'.globals i = vm.globals i) := by
  unfold VM.stepAt at h
  simp only [bind_eq_ok] at h
  obtain ⟨op, hop, h⟩ := h
  obtain ⟨e1, e2, e3, e4⟩ := execOp_ok_inv h
  unfold readByte at hop
  split at hop
  · cases hop
    exact ⟨e1, e2, op, by assumption, e3, e4⟩
  · exact Except.noConfusion hop

theorem runFrom_halted_inv {fuel : Nat} :
    ∀ {vm vm' : VM} {ip : Nat}, runFrom fuel vm ip = some (Outcome.halted vm') →
      vm'.instructions = vm.instructions ∧ vm'.constants = vm.constants := by
  induction fuel with
  | zero => intro vm vm' ip h; exact Option.noConfusion h
  | succ fuel ih =>
      intro vm vm' ip h
      unfold runFrom at h
      split at h
      · split at h
        · obtain ⟨e1, e2, -⟩ := stepAt_ok_inv (by assumption)
          obtain ⟨f1, f2⟩ := ih h
          exact ⟨f1.trans e1, f2.trans e2⟩
        · cases h
      · cases h
        exact ⟨rfl, rfl⟩

theorem runFrom_total (fuel : Nat) :
    ∀ (vm : VM) (ip : Nat), 1 ≤ fuel → vm.instructions.length < ip + fuel →
      (∀ a ∈ execTrace fuel vm ip, ∀ op, vm.instructions.get? a = some op →
        op ≠ 0x0E ∧ op ≠ 0x0F) →
      (runFrom fuel vm ip).isSome := by
  induction fuel with
  | zero => intro vm ip h1 _ _; omega
  | succ fuel ih =>
      intro vm ip _ hlen htrace
      unfold runFrom
      split
      · rename_i hip
        rcases hstep : vm.stepAt ip with f | ⟨vm', ip'⟩
        · simp
        · simp only
          obtain ⟨e1, -, op, hop, hadv, -⟩ := stepAt_ok_inv hstep
          have hmem : ip ∈ execTrace (fuel + 1) vm ip := by
            unfold execTrace
            rw [if_pos hip, hstep]
            exact List.mem_cons_self ip _
          obtain ⟨hne1, hne2⟩ := htrace ip hmem op hop
          have hip' : ip' = ip + 1 + operandWidth op := hadv hne1 hne2
          apply ih vm' ip'
          · omega
          · rw [e1]; omega
          · intro a ha op' hop'
            refine htrace a ?_ op' (by rw [← e1]; exact hop')
            unfold execTrace
            rw [if_pos hip, hstep]
            exact List.mem_cons_of_mem ip ha
      · simp

/-! ## Per-opcode evaluation lemmas -/

theorem execOp_pop_eq {vm : VM} (ip : Nat) (h1 : vm.sp ≠ 0) (h2 : ¬ STACK_SIZE < vm.sp) :
    vm.execOp 0x02 ip = Except.ok ({ vm with sp := vm.sp - 1 }, ip) := by
  simp only [VM.execOp, VM.pop_eq h1 h2, ok_bind]

theorem execOp_jumpNotTrue_true {vm : VM} (ip : Nat) (h1 : vm.sp ≠ 0) (h2 : ¬ STACK_SIZE < vm.sp)
    (hv : vm.stack (vm.sp - 1) = Object.Boolean true) :
    vm.execOp 0x0E ip = Except.ok ({ vm with sp := vm.sp - 1 }, ip + 2) := by
  simp only [VM.execOp, VM.pop_eq h1 h2, ok_bind, hv]

theorem execOp_jumpNotTrue_false {vm : VM} (ip t : Nat) (h1 : vm.sp ≠ 0) (h2 : ¬ STACK_SIZE < vm.sp)
    (hv : vm.stack (vm.sp - 1) = Object.Boolean false)
    (ht : readOperand vm.instructions ip = Except.ok t) :
    vm.execOp 0x0E ip = Except.ok ({ vm with sp := vm.sp - 1 }, t) := by
  simp only [VM.execOp, VM.pop_eq h1 h2, ok_bind, hv, ht]

theorem execOp_jumpNotTrue_notBool {vm : VM} (ip : Nat) (h1 : vm.sp ≠ 0) (h2 : ¬ STACK_SIZE < vm.sp)
    (hv : ∀ b : Bool, vm.stack (vm.sp - 1) ≠ Object.Boolean b) :
    vm.execOp 0x0E ip = Except.error Fault.typeMismatch := by
  simp only [VM.execOp, VM.pop_eq h1 h2, ok_bind]
  rcases hs : vm.stack (vm.sp - 1) with n | b | _
  · rfl
  · exact absurd hs (hv b)
  · rfl

theorem pop_pop_eq {vm : VM} (hsp : 2 ≤ vm.sp) (hsp2 : ¬ STACK_SIZE < vm.sp) :
    ({ vm with sp := vm.sp - 1 } : VM).pop
      = Except.ok (vm.stack (vm.sp - 2), { vm with sp := vm.sp - 2 }) := by
  rw [VM.pop_eq (show vm.sp - 1 ≠ 0 by omega) (show ¬ STACK_SIZE < vm.sp - 1 by omega)]
  have h : vm.sp - 1 - 1 = vm.sp - 2 := by omega
  simp [h]

theorem execOp_equals_int {vm : VM} (ip : Nat) {l r : Int}
    (hsp : 2 ≤ vm.sp) (hsp2 : vm.sp ≤ STACK_SIZE)
    (hl : vm.stack (vm.sp - 2) = Object.Integer l) (hr : vm.stack (vm.sp - 1) = Object.Integer r) :
    vm.execOp 0x09 ip = Except.ok ({ vm with
      stack := Function.update vm.stack (vm.sp - 2) (Object.Boolean (l == r)),
      sp := vm.sp - 1 }, ip) := by
  have e1 : vm.sp ≠ 0 := by omega
  have e2 : ¬ STACK_SIZE < vm.sp := by omega
  have e5 : vm.sp - 2 < STACK_SIZE := by unfold STACK_SIZE at *; omega
  have e6 : vm.sp - 2 + 1 = vm.sp - 1 := by omega
  simp only [VM.execOp, VM.pop_eq e1 e2, ok_bind, pop_pop_eq hsp e2, hl, hr,
    @VM.push_eq { vm with sp := vm.sp - 2 } (Object.Boolean (l == r)) e5, e6]

theorem execOp_equals_bool {vm : VM} (ip : Nat) {l r : Bool}
    (hsp : 2 ≤ vm.sp) (hsp2 : vm.sp ≤ STACK_SIZE)
    (hl : vm.stack (vm.sp - 2) = Object.Boolean l) (hr : vm.stack (vm.sp - 1) = Object.Boolean r) :
    vm.execOp 0x09 ip = Except.ok ({ vm with
      stack := Function.update vm.stack (vm.sp - 2) (Object.Boolean (l == r)),
      sp := vm.sp - 1 }, ip) := by
  have e1 : vm.sp ≠ 0 := by omega
  have e2 : ¬ STACK_SIZE < vm.sp := by omega
  have e5 : vm.sp - 2 < STACK_SIZE := by unfold STACK_SIZE at *; omega
  have e6 : vm.sp - 2 + 1 = vm.sp - 1 := by omega
  simp only [VM.execOp, VM.pop_eq e1 e2, ok_bind, pop_pop_eq hsp e2, hl, hr,
    @VM.push_eq { vm with sp := vm.sp - 2 } (Object.Boolean (l == r)) e5, e6]

theorem execOp_equals_mismatch {vm : VM} (ip : Nat)
    (hsp : 2 ≤ vm.sp) (hsp2 : vm.sp ≤ STACK_SIZE)
    (hii : ¬ ∃ l r : Int, vm.stack (vm.sp - 2) = Object.Integer l ∧
      vm.stack (vm.sp - 1) = Object.Integer r)
    (hbb : ¬ ∃ l r : Bool, vm.stack (vm.sp - 2) = Object.Boolean l ∧
      vm.stack (vm.sp - 1) = Object.Boolean r) :
    vm.execOp 0x09 ip = Except.error Fault.typeMismatch := by
  have e1 : vm.sp ≠ 0 := by omega
  have e2 : ¬ STACK_SIZE < vm.sp := by omega
  simp only [VM.execOp, VM.pop_eq e1 e2, ok_bind, pop_pop_eq hsp e2]
  rcases hL : vm.stack (vm.sp - 2) with n | b | _ <;>
    rcases hR : vm.stack (vm.sp - 1) with m | c | _
  case Integer.Integer => exact absurd ⟨_, _, hL, hR⟩ hii
  case Boolean.Boolean => exact absurd ⟨_, _, hL, hR⟩ hbb
  all_goals rfl

theorem execOp_notEquals_int {vm : VM} (ip : Nat) {l r : Int}
    (hsp : 2 ≤ vm.sp) (hsp2 : vm.sp ≤ STACK_SIZE)
    (hl : vm.stack (vm.sp - 2) = Object.Integer l) (hr : vm.stack (vm.sp - 1) = Object.Integer r) :
    vm.execOp 0x0A ip = Except.ok ({ vm with
      stack := Function.update vm.stack (vm.sp - 2) (Object.Boolean (l != r)),
      sp := vm.sp - 1 }, ip) := by
  have e1 : vm.sp ≠ 0 := by omega
  have e2 : ¬ STACK_SIZE < vm.sp := by omega
  have e5 : vm.sp - 2 < STACK_SIZE := by unfold STACK_SIZE at *; omega
  have e6 : vm.sp - 2 + 1 = vm.sp - 1 := by omega
  simp only [VM.execOp, VM.pop_eq e1 e2, ok_bind, pop_pop_eq hsp e2, hl, hr,
    @VM.push_eq { vm with sp := vm.sp - 2 } (Object.Boolean (l != r)) e5, e6]

theorem execOp_notEquals_bool {vm : VM} (ip : Nat) {l r : Bool}
    (hsp : 2 ≤ vm.sp) (hsp2 : vm.sp ≤ STACK_SIZE)
    (hl : vm.stack (vm.sp - 2) = Object.Boolean l) (hr : vm.stack (vm.sp - 1) = Object.Boolean r) :
    vm.execOp 0x0A ip = Except.ok ({ vm with
      stack := Function.update vm.stack (vm.sp - 2) (Object.Boolean (l != r)),
      sp := vm.sp - 1 }, ip) := by
  have e1 : vm.sp ≠ 0 := by omega
  have e2 : ¬ STACK_SIZE < vm.sp := by omega
  have e5 : vm.sp - 2 < STACK_SIZE := by unfold STACK_SIZE at *; omega
  have e6 : vm.sp - 2 + 1 = vm.sp - 1 := by omega
  simp only [VM.execOp, VM.pop_eq e1 e2, ok_bind, pop_pop_eq hsp e2, hl, hr,
    @VM.push_eq { vm with sp := vm.sp - 2 } (Object.Boolean (l != r)) e5, e6]

theorem execOp_notEquals_mismatch {vm : VM} (ip : Nat)
    (hsp : 2 ≤ vm.sp) (hsp2 : vm.sp ≤ STACK_SIZE)
    (hii : ¬ ∃ l r : Int, vm.stack (vm.sp - 2) = Object.Integer l ∧
      vm.stack (vm.sp - 1) = Object.Integer r)
    (hbb : ¬ ∃ l r : Bool, vm.stack (vm.sp - 2) = Object.Boolean l ∧
      vm.stack (vm.sp - 1) = Object.Boolean r) :
    vm.execOp 0x0A ip = Except.error Fault.typeMismatch := by
  have e1 : vm.sp ≠ 0 := by omega
  have e2 : ¬ STACK_SIZE < vm.sp := by omega
  simp only [VM.execOp, VM.pop_eq e1 e2, ok_bind, pop_pop_eq hsp e2]
  rcases hL : vm.stack (vm.sp - 2) with n | b | _ <;>
    rcases hR : vm.stack (vm.sp - 1) with m | c | _
  case Integer.Integer => exact absurd ⟨_, _, hL, hR⟩ hii
  case Boolean.Boolean => exact absurd ⟨_, _, hL, hR⟩ hbb
  all_goals rfl

theorem execOp_greaterThan_int {vm : VM} (ip : Nat) {l r : Int}
    (hsp : 2 ≤ vm.sp) (hsp2 : vm.sp ≤ STACK_SIZE)
    (hl : vm.stack (vm.sp - 2) = Object.Integer l) (hr : vm.stack (vm.sp - 1) = Object.Integer r) :
    vm.execOp 0x0B ip = Except.ok ({ vm with
      stack := Function.update vm.stack (vm.sp - 2) (Object.Boolean (decide (l > r))),
      sp := vm.sp - 1 }, ip) := by
  have e1 : vm.sp ≠ 0 := by omega
  have e2 : ¬ STACK_SIZE < vm.sp := by omega
  have e5 : vm.sp - 2 < STACK_SIZE := by unfold STACK_SIZE at *; omega
  have e6 : vm.sp - 2 + 1 = vm.sp - 1 := by omega
  simp only [VM.execOp, VM.pop_eq e1 e2, ok_bind, pop_pop_eq hsp e2, hl, hr,
    @VM.push_eq { vm with sp := vm.sp - 2 } (Object.Boolean (decide (l > r))) e5, e6]

theorem execOp_greaterThan_mismatch {vm : VM} (ip : Nat)
    (hsp : 2 ≤ vm.sp) (hsp2 : vm.sp ≤ STACK_SIZE)
    (hii : ¬ ∃ l r : Int, vm.stack (vm.sp - 2) = Object.Integer l ∧
      vm.stack (vm.sp - 1) = Object.Integer r) :
    vm.execOp 0x0B ip = Except.error Fault.typeMismatch := by
  have e1 : vm.sp ≠ 0 := by omega
  have e2 : ¬ STACK_SIZE < vm.sp := by omega
  simp only [VM.execOp, VM.pop_eq e1 e2, ok_bind, pop_pop_eq hsp e2]
  rcases hL : vm.stack (vm.sp - 2) with n | b | _ <;>
    rcases hR : vm.stack (vm.sp - 1) with m | c | _
  case Integer.Integer => exact absurd ⟨_, _, hL, hR⟩ hii
  all_goals rfl

theorem execOp_setGlobal_eq {vm : VM} (ip : Nat) {gi : Nat}
    (hro : readOperand vm.instructions ip = Except.ok gi)
    (h1 : vm.sp ≠ 0) (h2 : ¬ STACK_SIZE < vm.sp) (hgi : gi < GLOBAL_SIZE) :
    vm.execOp 0x10 ip = Except.ok ({ vm with
      globals := Function.update vm.globals gi (vm.stack (vm.sp - 1)),
      sp := vm.sp - 1 }, ip + 2) := by
  simp only [VM.execOp, hro, ok_bind, VM.pop_eq h1 h2, if_pos hgi]

theorem execOp_getGlobal_eq {vm : VM} (ip : Nat) {gi : Nat}
    (hro : readOperand vm.instructions ip = Except.ok gi)
    (hgi : gi < GLOBAL_SIZE) (hsp : vm.sp < STACK_SIZE) :
    vm.execOp 0x11 ip = Except.ok ({ vm with
      stack := Function.update vm.stack vm.sp (vm.globals gi),
      sp := vm.sp + 1 }, ip + 2) := by
  simp only [VM.execOp, hro, ok_bind, if_pos hgi, VM.push_eq (vm.globals gi) hsp]

theorem readOperand_eq {ins : List Nat} {i b1 b2 : Nat}
    (h1 : ins.get? i = some b1) (h2 : ins.get? (i + 1) = some b2) :
    readOperand ins i = Except.ok (convert_two_u8s_be_to_usize b1 b2) := by
  simp only [readOperand, readByte, h1, h2, ok_bind]

theorem execOp_jump_eq {vm : VM} (ip : Nat) {t : Nat}
    (hro : readOperand vm.instructions ip = Except.ok t) :
    vm.execOp 0x0F ip = Except.ok (vm, t) := by
  simp only [VM.execOp, hro, ok_bind]

theorem reaches_preserves_global {i : Nat} {vm vm' : VM} {ip ip' : Nat}
    (h : ReachesAvoiding i vm ip vm' ip') : vm'.globals i = vm.globals i := by
  induction h with
  | refl vm ip => rfl
  | step hstep hns _ ih =>
      rename_i vm ip vmMid ipMid vm' ip'
      obtain ⟨-, -, op, hop, -, hglob⟩ := stepAt_ok_inv hstep
      rw [ih]
      exact hglob i (fun h16 hro => hns ⟨h16 ▸ hop, hro⟩)

/-! ## Claim C1 — arithmetic opcodes -/

/-- Claim C1, as stated, is false on the code at a concrete input, in two
ways. First, the literal program `Constant(a); Constant(b); Add` (no
trailing `Pop`) leaves `last_popped` holding the stale right operand, not
the sum: at `a = 1, b = 2` it yields `Integer 2 ≠ Integer 3`. Second, even
with the statement-terminating `Pop` that makes the sum observable, `i64`
addition wraps: at `a = 2^63 - 1, b = 1` the popped value is
`Integer (-2^63)`, not `a + b = 2^63`. -/
theorem arith_claim_counterexample :
    (finalLastPopped ((VM.new (arithProgNoPop 0x03 1 2)).run 4) = some (Object.Integer 2) ∧
      Object.Integer 2 ≠ Object.Integer (1 + 2)) ∧
    (finalLastPopped ((VM.new (arithProg 0x03 (2 ^ 63 - 1) 1)).run 5)
        = some (Object.Integer (-(2 ^ 63))) ∧
      (-(2 ^ 63) : Int) ≠ (2 ^ 63 - 1) + 1) := by
  exact ⟨⟨by decide, by decide⟩, ⟨by decide, by decide⟩⟩

/-- Claim C1 (amended): for 64-bit integers `a`, `b`, running
`Constant(a); Constant(b); <op>; Pop` (with the statement-terminating
`Pop`) yields `a + b` as the last popped value whenever the exact sum is
representable in 64 bits, and analogously for `Sub`, `Mul`, and (for
`b ≠ 0` excluding the overflowing `i64::MIN / -1`) truncated division
`Div`. -/
theorem arith_last_popped (a b : Int) (ha : in64 a) (hb : in64 b) :
    (in64 (a + b) →
      finalLastPopped ((VM.new (arithProg 0x03 a b)).run 5) = some (Object.Integer (a + b))) ∧
    (in64 (a - b) →
      finalLastPopped ((VM.new (arithProg 0x04 a b)).run 5) = some (Object.Integer (a - b))) ∧
    (in64 (a * b) →
      finalLastPopped ((VM.new (arithProg 0x05 a b)).run 5) = some (Object.Integer (a * b))) ∧
    (b ≠ 0 → ¬(a = -(2 ^ 63) ∧ b = -1) →
      finalLastPopped ((VM.new (arithProg 0x06 a b)).run 5)
        = some (Object.Integer (Int.tdiv a b))) := by
  refine ⟨fun h => ?_, fun h => ?_, fun h => ?_, fun h0 h1 => ?_⟩
  · have e : finalLastPopped ((VM.new (arithProg 0x03 a b)).run 5)
        = some (Object.Integer (wrap64 (a + b))) := rfl
    rw [e, wrap64_eq_self h]
  · have e : finalLastPopped ((VM.new (arithProg 0x04 a b)).run 5)
        = some (Object.Integer (wrap64 (a - b))) := rfl
    rw [e, wrap64_eq_self h]
  · have e : finalLastPopped ((VM.new (arithProg 0x05 a b)).run 5)
        = some (Object.Integer (wrap64 (a * b))) := rfl
    rw [e, wrap64_eq_self h]
  · simp [VM.run, runFrom, VM.stepAt, VM.execOp, readByte, readOperand, VM.push, VM.pop,
      VM.new, STACK_SIZE, finalLastPopped, VM.last_popped, convert_two_u8s_be_to_usize,
      arithProg, i64Div_eq h0 h1, ok_bind, error_bind, Function.update_same, Function.update_noteq]

/-- Witness for `arith_last_popped` at `a = 6, b = 2`. -/
theorem arith_last_popped_witness :
    finalLastPopped ((VM.new (arithProg 0x03 6 2)).run 5) = some (Object.Integer 8) ∧
    finalLastPopped ((VM.new (arithProg 0x04 6 2)).run 5) = some (Object.Integer 4) ∧
    finalLastPopped ((VM.new (arithProg 0x05 6 2)).run 5) = some (Object.Integer 12) ∧
    finalLastPopped ((VM.new (arithProg 0x06 6 2)).run 5) = some (Object.Integer 3) := by
  obtain ⟨h1, h2, h3, h4⟩ :=
    arith_last_popped 6 2 ⟨by decide, by decide⟩ ⟨by decide, by decide⟩
  exact ⟨h1 ⟨by decide, by decide⟩, h2 ⟨by decide, by decide⟩,
    h3 ⟨by decide, by decide⟩, h4 (by decide) (by decide)⟩

/-! ## Claim C2 — JumpNotTrue -/

/-- Claim C2: executing `JumpNotTrue` pops one value, which must be a
Boolean (a non-Boolean operand is a fatal fault); if the popped value is
`false`, `ip` is set to the 2-byte big-endian target address; if it is
`true`, execution continues at the instruction immediately after the
2-byte operand (`ip + 3`). -/
theorem jumpNotTrue_spec (vm : VM) (ip : Nat)
    (hop : vm.instructions.get? ip = some 0x0E)
    (hsp : vm.sp ≠ 0) (hsp2 : ¬ STACK_SIZE < vm.sp) :
    (∀ b1 b2 : Nat, vm.stack (vm.sp - 1) = Object.Boolean false →
      vm.instructions.get? (ip + 1) = some b1 → vm.instructions.get? (ip + 2) = some b2 →
      vm.stepAt ip = Except.ok ({ vm with sp := vm.sp - 1 }, convert_two_u8s_be_to_usize b1 b2)) ∧
    (vm.stack (vm.sp - 1) = Object.Boolean true →
      vm.stepAt ip = Except.ok ({ vm with sp := vm.sp - 1 }, ip + 3)) ∧
    ((∀ b : Bool, vm.stack (vm.sp - 1) ≠ Object.Boolean b) →
      vm.stepAt ip = Except.error Fault.typeMismatch) := by
  refine ⟨fun b1 b2 hv h1 h2 => ?_, fun hv => ?_, fun hv => ?_⟩
  · rw [VM.stepAt_eq hop]
    exact execOp_jumpNotTrue_false (ip + 1) _ hsp hsp2 hv (readOperand_eq h1 h2)
  · rw [VM.stepAt_eq hop]
    exact execOp_jumpNotTrue_true (ip + 1) hsp hsp2 hv
  · rw [VM.stepAt_eq hop]
    exact execOp_jumpNotTrue_notBool (ip + 1) hsp hsp2 hv

/-- Witness for `jumpNotTrue_spec`: a `JumpNotTrue` at address 0 with
operand bytes `(0, 0)`; with `false` on top of the stack it jumps to 0,
with `true` it falls through to 3, and with `Integer 7` it faults. -/
theorem jumpNotTrue_spec_witness :
    ((⟨[0x0E, 0, 0], [], Function.update (fun _ => Object.Null) 0 (Object.Boolean false),
        fun _ => Object.Null, 1⟩ : VM).stepAt 0
      = Except.ok (⟨[0x0E, 0, 0], [], Function.update (fun _ => Object.Null) 0 (Object.Boolean false),
        fun _ => Object.Null, 0⟩, 0)) ∧
    ((⟨[0x0E, 0, 0], [], Function.update (fun _ => Object.Null) 0 (Object.Boolean true),
        fun _ => Object.Null, 1⟩ : VM).stepAt 0
      = Except.ok (⟨[0x0E, 0, 0], [], Function.update (fun _ => Object.Null) 0 (Object.Boolean true),
        fun _ => Object.Null, 0⟩, 3)) ∧
    ((⟨[0x0E, 0, 0], [], Function.update (fun _ => Object.Null) 0 (Object.Integer 7),
        fun _ => Object.Null, 1⟩ : VM).stepAt 0 = Except.error Fault.typeMismatch) := by
  refine ⟨?_, ?_, ?_⟩
  · exact (jumpNotTrue_spec
      ⟨[0x0E, 0, 0], [], Function.update (fun _ => Object.Null) 0 (Object.Boolean false),
        fun _ => Object.Null, 1⟩ 0 rfl (by decide) (by decide)).1 0 0 (by decide) rfl rfl
  · exact (jumpNotTrue_spec
      ⟨[0x0E, 0, 0], [], Function.update (fun _ => Object.Null) 0 (Object.Boolean true),
        fun _ => Object.Null, 1⟩ 0 rfl (by decide) (by decide)).2.1 (by decide)
  · exact (jumpNotTrue_spec
      ⟨[0x0E, 0, 0], [], Function.update (fun _ => Object.Null) 0 (Object.Integer 7),
        fun _ => Object.Null, 1⟩ 0 rfl (by decide) (by decide)).2.2 (by decide)

/-! ## Claim C3 — `last_popped` after a Pop -/

/-- Claim C3: for any VM state with a non-empty stack (`sp ≥ 1`, within
capacity), executing a `Pop` instruction succeeds, and `last_popped`
immediately afterwards returns exactly the value that was on top of the
stack (slot `sp - 1`) immediately before the `Pop`. -/
theorem pop_last_popped (vm : VM) (ip : Nat)
    (hop : vm.instructions.get? ip = some 0x02)
    (hsp : vm.sp ≠ 0) (hsp2 : vm.sp ≤ STACK_SIZE) :
    vm.stepAt ip = Except.ok ({ vm with sp := vm.sp - 1 }, ip + 1) ∧
    ({ vm with sp := vm.sp - 1 } : VM).last_popped = some (vm.stack (vm.sp - 1)) := by
  constructor
  · rw [VM.stepAt_eq hop]
    exact execOp_pop_eq (ip + 1) hsp (by omega)
  · unfold VM.last_popped
    rw [if_pos (show vm.sp - 1 < STACK_SIZE by unfold STACK_SIZE at *; omega)]

/-- Witness for `pop_last_popped`: popping `Integer 42` parks it in the
`last_popped` slot. -/
theorem pop_last_popped_witness :
    (⟨[0x02], [], Function.update (fun _ => Object.Null) 0 (Object.Integer 42),
        fun _ => Object.Null, 1⟩ : VM).stepAt 0
      = Except.ok (⟨[0x02], [], Function.update (fun _ => Object.Null) 0 (Object.Integer 42),
        fun _ => Object.Null, 0⟩, 1) ∧
    (⟨[0x02], [], Function.update (fun _ => Object.Null) 0 (Object.Integer 42),
        fun _ => Object.Null, 0⟩ : VM).last_popped = some (Object.Integer 42) := by
  have h := pop_last_popped
    ⟨[0x02], [], Function.update (fun _ => Object.Null) 0 (Object.Integer 42),
      fun _ => Object.Null, 1⟩ 0 rfl (by decide) (by decide)
  exact ⟨h.1, h.2.trans (by decide)⟩

/-! ## Claim C4 — global slot round-trip -/

/-- Claim C4: for any slot index `i` within the global-table capacity and
any Value `v`: executing `SetGlobal(i)` with `v` on top of the stack,
followed later — after any number of successful steps none of which is a
`SetGlobal` to slot `i` — by `GetGlobal(i)`, pushes a value equal to the
exact stored value `v`. -/
theorem global_round_trip {i : Nat} {v : Object} {vm₀ vm₁ vm₂ : VM} {ip₀ ip₁ ip₂ : Nat}
    (hgi : i < GLOBAL_SIZE)
    (hset : vm₀.instructions.get? ip₀ = some 0x10)
    (hoper : readOperand vm₀.instructions (ip₀ + 1) = Except.ok i)
    (htop : vm₀.stack (vm₀.sp - 1) = v)
    (hsp : vm₀.sp ≠ 0) (hsp2 : ¬ STACK_SIZE < vm₀.sp)
    (hstep : vm₀.stepAt ip₀ = Except.ok (vm₁, ip₁))
    (hreach : ReachesAvoiding i vm₁ ip₁ vm₂ ip₂)
    (hget : vm₂.instructions.get? ip₂ = some 0x11)
    (hoper2 : readOperand vm₂.instructions (ip₂ + 1) = Except.ok i)
    (hsp3 : vm₂.sp < STACK_SIZE) :
    vm₂.stepAt ip₂ = Except.ok ({ vm₂ with
      stack := Function.update vm₂.stack vm₂.sp v, sp := vm₂.sp + 1 }, ip₂ + 3) := by
  rw [VM.stepAt_eq hset, execOp_setGlobal_eq (ip₀ + 1) hoper hsp hsp2 hgi] at hstep
  injection hstep with hstep
  injection hstep with hvm1 hip1
  have hglob : vm₂.globals i = v := by
    rw [reaches_preserves_global hreach, ← hvm1]
    simp [Function.update_same, htop]
  rw [VM.stepAt_eq hget, execOp_getGlobal_eq (ip₂ + 1) hoper2 hgi hsp3, hglob]

/-- Witness for `global_round_trip`: `SetGlobal(0)` storing `Boolean true`
immediately followed by `GetGlobal(0)` pushes `Boolean true` back. -/
theorem global_round_trip_witness :
    (⟨[0x10, 0, 0, 0x11, 0, 0], [],
        Function.update (fun _ => Object.Null) 0 (Object.Boolean true),
        Function.update (fun _ => Object.Null) 0 (Object.Boolean true), 0⟩ : VM).stepAt 3
      = Except.ok (⟨[0x10, 0, 0, 0x11, 0, 0], [],
        Function.update (Function.update (fun _ => Object.Null) 0 (Object.Boolean true)) 0
          (Object.Boolean true),
        Function.update (fun _ => Object.Null) 0 (Object.Boolean true), 1⟩, 6) := by
  exact @global_round_trip 0 (Object.Boolean true)
    ⟨[0x10, 0, 0, 0x11, 0, 0], [],
      Function.update (fun _ => Object.Null) 0 (Object.Boolean true),
      fun _ => Object.Null, 1⟩
    ⟨[0x10, 0, 0, 0x11, 0, 0], [],
      Function.update (fun _ => Object.Null) 0 (Object.Boolean true),
      Function.update (fun _ => Object.Null) 0 (Object.Boolean true), 0⟩
    ⟨[0x10, 0, 0, 0x11, 0, 0], [],
      Function.update (fun _ => Object.Null) 0 (Object.Boolean true),
      Function.update (fun _ => Object.Null) 0 (Object.Boolean true), 0⟩
    0 3 3 (by decide) rfl rfl (by decide) (by decide) (by decide)
    rfl (ReachesAvoiding.refl _ _) rfl rfl (by decide)

/-! ## Claim C5 — Equals / NotEquals -/

/-- Claim C5: `Equals` and `NotEquals` pop two operands (right from slot
`sp - 1`, then left from slot `sp - 2`); when both are Integers or both
are Booleans they push the Boolean result of comparing the operands by
value (`==` agreeing with propositional equality, `!=` with inequality);
for any mixed or other operand-type pair they halt with a fatal
type-mismatch fault. -/
theorem equality_ops_spec (vm : VM) (ip : Nat)
    (hsp : 2 ≤ vm.sp) (hsp2 : vm.sp ≤ STACK_SIZE) :
    (vm.instructions.get? ip = some 0x09 →
      (∀ l r : Int, vm.stack (vm.sp - 2) = Object.Integer l →
        vm.stack (vm.sp - 1) = Object.Integer r →
        vm.stepAt ip = Except.ok ({ vm with
          stack := Function.update vm.stack (vm.sp - 2) (Object.Boolean (l == r)),
          sp := vm.sp - 1 }, ip + 1) ∧ ((l == r) = true ↔ l = r)) ∧
      (∀ l r : Bool, vm.stack (vm.sp - 2) = Object.Boolean l →
        vm.stack (vm.sp - 1) = Object.Boolean r →
        vm.stepAt ip = Except.ok ({ vm with
          stack := Function.update vm.stack (vm.sp - 2) (Object.Boolean (l == r)),
          sp := vm.sp - 1 }, ip + 1) ∧ ((l == r) = true ↔ l = r)) ∧
      ((¬ ∃ l r : Int, vm.stack (vm.sp - 2) = Object.Integer l ∧
          vm.stack (vm.sp - 1) = Object.Integer r) →
        (¬ ∃ l r : Bool, vm.stack (vm.sp - 2) = Object.Boolean l ∧
          vm.stack (vm.sp - 1) = Object.Boolean r) →
        vm.stepAt ip = Except.error Fault.typeMismatch)) ∧
    (vm.instructions.get? ip = some 0x0A →
      (∀ l r : Int, vm.stack (vm.sp - 2) = Object.Integer l →
        vm.stack (vm.sp - 1) = Object.Integer r →
        vm.stepAt ip = Except.ok ({ vm with
          stack := Function.update vm.stack (vm.sp - 2) (Object.Boolean (l != r)),
          sp := vm.sp - 1 }, ip + 1) ∧ ((l != r) = true ↔ l ≠ r)) ∧
      (∀ l r : Bool, vm.stack (vm.sp - 2) = Object.Boolean l →
        vm.stack (vm.sp - 1) = Object.Boolean r →
        vm.stepAt ip = Except.ok ({ vm with
          stack := Function.update vm.stack (vm.sp - 2) (Object.Boolean (l != r)),
          sp := vm.sp - 1 }, ip + 1) ∧ ((l != r) = true ↔ l ≠ r)) ∧
      ((¬ ∃ l r : Int, vm.stack (vm.sp - 2) = Object.Integer l ∧
          vm.stack (vm.sp - 1) = Object.Integer r) →
        (¬ ∃ l r : Bool, vm.stack (vm.sp - 2) = Object.Boolean l ∧
          vm.stack (vm.sp - 1) = Object.Boolean r) →
        vm.stepAt ip = Except.error Fault.typeMismatch)) := by
  constructor
  · intro hop
    refine ⟨fun l r hl hr => ⟨?_, beq_iff_eq⟩, fun l r hl hr => ⟨?_, beq_iff_eq⟩,
      fun hii hbb => ?_⟩
    · rw [VM.stepAt_eq hop]; exact execOp_equals_int (ip + 1) hsp hsp2 hl hr
    · rw [VM.stepAt_eq hop]; exact execOp_equals_bool (ip + 1) hsp hsp2 hl hr
    · rw [VM.stepAt_eq hop]; exact execOp_equals_mismatch (ip + 1) hsp hsp2 hii hbb
  · intro hop
    refine ⟨fun l r hl hr => ⟨?_, bne_iff_ne⟩, fun l r hl hr => ⟨?_, bne_iff_ne⟩,
      fun hii hbb => ?_⟩
    · rw [VM.stepAt_eq hop]; exact execOp_notEquals_int (ip + 1) hsp hsp2 hl hr
    · rw [VM.stepAt_eq hop]; exact execOp_notEquals_bool (ip + 1) hsp hsp2 hl hr
    · rw [VM.stepAt_eq hop]; exact execOp_notEquals_mismatch (ip + 1) hsp hsp2 hii hbb

/-- Witness for `equality_ops_spec`: `3 == 3` pushes `Boolean true`, and
`NotEquals` on `Integer 1` vs `Boolean true` (mismatched types) faults. -/
theorem equality_ops_spec_witness :
    ((⟨[0x09], [],
        Function.update (Function.update (fun _ => Object.Null) 0 (Object.Integer 3)) 1
          (Object.Integer 3),
        fun _ => Object.Null, 2⟩ : VM).stepAt 0
      = Except.ok (⟨[0x09], [],
        Function.update
          (Function.update (Function.update (fun _ => Object.Null) 0 (Object.Integer 3)) 1
            (Object.Integer 3)) 0 (Object.Boolean true),
        fun _ => Object.Null, 1⟩, 1)) ∧
    ((⟨[0x0A], [],
        Function.update (Function.update (fun _ => Object.Null) 0 (Object.Integer 1)) 1
          (Object.Boolean true),
        fun _ => Object.Null, 2⟩ : VM).stepAt 0 = Except.error Fault.typeMismatch) := by
  constructor
  · exact ((equality_ops_spec
      ⟨[0x09], [],
        Function.update (Function.update (fun _ => Object.Null) 0 (Object.Integer 3)) 1
          (Object.Integer 3),
        fun _ => Object.Null, 2⟩ 0 (by decide) (by decide)).1 rfl).1 3 3 (by decide) (by decide)
      |>.1
  · exact ((equality_ops_spec
      ⟨[0x0A], [],
        Function.update (Function.update (fun _ => Object.Null) 0 (Object.Integer 1)) 1
          (Object.Boolean true),
        fun _ => Object.Null, 2⟩ 0 (by decide) (by decide)).2 rfl).2.2
      (by rintro ⟨l, r, -, h2⟩; exact Object.noConfusion h2)
      (by rintro ⟨l, r, h1, -⟩; exact Object.noConfusion h1)

/-! ## Claim C6 — GreaterThan -/

/-- Claim C6: `GreaterThan` pops the right operand first (slot `sp - 1`)
and the left operand second (slot `sp - 2`), requires both to be
Integers (otherwise a fatal type-mismatch fault), and pushes
`Boolean (left > right)`; consequently, for any two Integers pushed
left-first then right, `GreaterThan` leaves `Boolean (left > right)` on
top of the stack. -/
theorem greaterThan_spec :
    (∀ (vm : VM) (ip : Nat), 2 ≤ vm.sp → vm.sp ≤ STACK_SIZE →
      vm.instructions.get? ip = some 0x0B →
      (∀ l r : Int, vm.stack (vm.sp - 2) = Object.Integer l →
        vm.stack (vm.sp - 1) = Object.Integer r →
        vm.stepAt ip = Except.ok ({ vm with
          stack := Function.update vm.stack (vm.sp - 2) (Object.Boolean (decide (l > r))),
          sp := vm.sp - 1 }, ip + 1)) ∧
      ((¬ ∃ l r : Int, vm.stack (vm.sp - 2) = Object.Integer l ∧
          vm.stack (vm.sp - 1) = Object.Integer r) →
        vm.stepAt ip = Except.error Fault.typeMismatch)) ∧
    (∀ a b : Int, finalTop ((VM.new (arithProgNoPop 0x0B a b)).run 4)
      = some (Object.Boolean (decide (a > b)))) := by
  constructor
  · intro vm ip hsp hsp2 hop
    constructor
    · intro l r hl hr
      rw [VM.stepAt_eq hop]
      exact execOp_greaterThan_int (ip + 1) hsp hsp2 hl hr
    · intro hii
      rw [VM.stepAt_eq hop]
      exact execOp_greaterThan_mismatch (ip + 1) hsp hsp2 hii
  · intro a b
    rfl

/-- Witness for `greaterThan_spec`: `5 > 2` leaves `Boolean true` on top
of the stack, and `GreaterThan` on `Boolean` operands faults. -/
theorem greaterThan_spec_witness :
    finalTop ((VM.new (arithProgNoPop 0x0B 5 2)).run 4) = some (Object.Boolean true) ∧
    (⟨[0x0B], [],
        Function.update (Function.update (fun _ => Object.Null) 0 (Object.Boolean true)) 1
          (Object.Boolean false),
        fun _ => Object.Null, 2⟩ : VM).stepAt 0 = Except.error Fault.typeMismatch := by
  constructor
  · exact greaterThan_spec.2 5 2
  · exact (greaterThan_spec.1
      ⟨[0x0B], [],
        Function.update (Function.update (fun _ => Object.Null) 0 (Object.Boolean true)) 1
          (Object.Boolean false),
        fun _ => Object.Null, 2⟩ 0 (by decide) (by decide) rfl).2
      (by rintro ⟨l, r, h1, -⟩; exact Object.noConfusion h1)

/-! ## Claim C7 — instruction pointer lifecycle -/

/-- Claim C7: the instruction pointer starts at 0 (`run` enters the loop
at `ip = 0`); execution ends when `ip` reaches the instruction stream
length; after one fetch-decode-execute step the instruction pointer
equals its prior value plus 1 plus the operand width of the instruction,
except that `Jump` sets it to the 2-byte big-endian target address read
immediately after the opcode, and `JumpNotTrue` with a popped `false`
sets it to the target address (with a popped `true` it continues at
`ip + 3`, past the already-decoded operand). -/
theorem ip_lifecycle :
    (∀ (vm : VM) (fuel : Nat), vm.run fuel = runFrom fuel vm 0) ∧
    (∀ (vm : VM) (ip fuel : Nat), vm.instructions.length ≤ ip →
      runFrom (fuel + 1) vm ip = some (Outcome.halted vm)) ∧
    (∀ (vm vm' : VM) (ip ip' op : Nat), vm.stepAt ip = Except.ok (vm', ip') →
      vm.instructions.get? ip = some op → op ≠ 0x0E → op ≠ 0x0F →
      ip' = ip + 1 + operandWidth op) ∧
    (∀ (vm vm' : VM) (ip ip' b1 b2 : Nat), vm.instructions.get? ip = some 0x0F →
      vm.instructions.get? (ip + 1) = some b1 → vm.instructions.get? (ip + 2) = some b2 →
      vm.stepAt ip = Except.ok (vm', ip') → ip' = convert_two_u8s_be_to_usize b1 b2) ∧
    (∀ (vm : VM) (ip b1 b2 : Nat), vm.instructions.get? ip = some 0x0E →
      vm.sp ≠ 0 → ¬ STACK_SIZE < vm.sp →
      vm.instructions.get? (ip + 1) = some b1 → vm.instructions.get? (ip + 2) = some b2 →
      (vm.stack (vm.sp - 1) = Object.Boolean false →
        vm.stepAt ip = Except.ok ({ vm with sp := vm.sp - 1 },
          convert_two_u8s_be_to_usize b1 b2)) ∧
      (vm.stack (vm.sp - 1) = Object.Boolean true →
        vm.stepAt ip = Except.ok ({ vm with sp := vm.sp - 1 }, ip + 3))) := by
  refine ⟨fun vm fuel => rfl, fun vm ip fuel h => ?_, ?_, ?_, ?_⟩
  · unfold runFrom
    rw [if_neg (by omega)]
  · intro vm vm' ip ip' op hstep hop hne1 hne2
    obtain ⟨-, -, op', hop', hadv, -⟩ := stepAt_ok_inv hstep
    rw [hop'] at hop
    injection hop with hop
    subst hop
    exact hadv hne1 hne2
  · intro vm vm' ip ip' b1 b2 hop h1 h2 hstep
    rw [VM.stepAt_eq hop, execOp_jump_eq (ip + 1) (readOperand_eq h1 h2)] at hstep
    injection hstep with hstep
    injection hstep with _ hip
    exact hip.symm
  · intro vm ip b1 b2 hop hsp hsp2 h1 h2
    constructor
    · intro hv
      rw [VM.stepAt_eq hop]
      exact execOp_jumpNotTrue_false (ip + 1) _ hsp hsp2 hv (readOperand_eq h1 h2)
    · intro hv
      rw [VM.stepAt_eq hop]
      exact execOp_jumpNotTrue_true (ip + 1) hsp hsp2 hv

/-- Witness for `ip_lifecycle`: a `Constant` step advances `ip` by 3
(1 opcode byte + 2 operand bytes), a `Jump 0` step sets `ip` to 0, and a
halted loop returns the state unchanged. -/
theorem ip_lifecycle_witness :
    (VM.new ⟨[0x07], []⟩).run 0 = runFrom 0 (VM.new ⟨[0x07], []⟩) 0 ∧
    runFrom 1 (VM.new ⟨[0x07], []⟩) 1 = some (Outcome.halted (VM.new ⟨[0x07], []⟩)) ∧
    (3 : Nat) = 0 + 1 + operandWidth 0x01 ∧
    (0 : Nat) = convert_two_u8s_be_to_usize 0 0 := by
  refine ⟨ip_lifecycle.1 _ 0, ip_lifecycle.2.1 _ 1 0 (by decide), ?_, ?_⟩
  · exact ip_lifecycle.2.2.1
      (VM.new ⟨[0x01, 0, 0], [Object.Integer 5]⟩) _ 0 3 0x01 rfl rfl
      (by decide) (by decide)
  · exact ip_lifecycle.2.2.2.1
      (VM.new ⟨[0x0F, 0, 0], []⟩) _ 0 0 0 0 rfl rfl rfl rfl

/-! ## Claim C8 — instructions and constants are read-only -/

/-- Claim C8: execution never modifies the instruction stream or the
constant pool — every successful step, and every run that returns
normally, leaves `instructions` and `constants` equal to their initial
values (all mutation is confined to the stack, the globals table, and
`ip`). -/
theorem code_readonly :
    (∀ (vm vm' : VM) (ip ip' : Nat), vm.stepAt ip = Except.ok (vm', ip') →
      vm'.instructions = vm.instructions ∧ vm'.constants = vm.constants) ∧
    (∀ (fuel : Nat) (vm vm' : VM), vm.run fuel = some (Outcome.halted vm') →
      vm'.instructions = vm.instructions ∧ vm'.constants = vm.constants) :=
  ⟨fun _ _ _ _ h => ⟨(stepAt_ok_inv h).1, (stepAt_ok_inv h).2.1⟩,
   fun _ _ _ h => runFrom_halted_inv h⟩

/-- Witness for `code_readonly`: a one-instruction program (`True`) run to
completion keeps its instruction stream and (empty) constant pool. -/
theorem code_readonly_witness :
    (⟨[0x07], [], Function.update (fun _ => Object.Null) 0 (Object.Boolean true),
        fun _ => Object.Null, 1⟩ : VM).instructions = (VM.new ⟨[0x07], []⟩).instructions ∧
    (⟨[0x07], [], Function.update (fun _ => Object.Null) 0 (Object.Boolean true),
        fun _ => Object.Null, 1⟩ : VM).constants = (VM.new ⟨[0x07], []⟩).constants := by
  exact code_readonly.2 2 (VM.new ⟨[0x07], []⟩)
    ⟨[0x07], [], Function.update (fun _ => Object.Null) 0 (Object.Boolean true),
      fun _ => Object.Null, 1⟩ rfl

/-! ## Claim C9 — termination of jump-free programs -/

/-- Claim C9: for every instruction stream that contains no `Jump` (0x0F)
and no `JumpNotTrue` (0x0E) opcode at any executed opcode position, the
run loop terminates within `length + 1` iterations (returning normally or
with a fault), because the instruction pointer strictly increases on
every non-jump iteration until it reaches the stream length. -/
theorem no_jump_terminates (vm : VM)
    (hnojump : ∀ a ∈ execTrace (vm.instructions.length + 1) vm 0,
      ∀ op, vm.instructions.get? a = some op → op ≠ 0x0E ∧ op ≠ 0x0F) :
    (vm.run (vm.instructions.length + 1)).isSome :=
  runFrom_total (vm.instructions.length + 1) vm 0 (by omega) (by omega) hnojump

/-- Witness for `no_jump_terminates`: the jump-free program
`True; Pop` halts within 3 iterations. -/
theorem no_jump_terminates_witness :
    ((VM.new ⟨[0x07, 0x02], []⟩).run 3).isSome := by
  exact no_jump_terminates (VM.new ⟨[0x07, 0x02], []⟩) (by decide)

/-! ## Claim C10 — determinism -/

/-- Claim C10: `run` is deterministic — two VM instances constructed from
equal byte code (equal instruction bytes and equal constant pools) run to
equal results: the same outcome, the same `last_popped` observation, and,
on normal completion, equal stacks, stack pointers, globals tables, and
`last_popped` values. -/
theorem run_deterministic (bc₁ bc₂ : ByteCode) (fuel : Nat)
    (h1 : bc₁.instructions = bc₂.instructions) (h2 : bc₁.constants = bc₂.constants) :
    (VM.new bc₁).run fuel = (VM.new bc₂).run fuel ∧
    finalLastPopped ((VM.new bc₁).run fuel) = finalLastPopped ((VM.new bc₂).run fuel) ∧
    (∀ vm₁ vm₂ : VM, (VM.new bc₁).run fuel = some (Outcome.halted vm₁) →
      (VM.new bc₂).run fuel = some (Outcome.halted vm₂) →
      vm₁.stack = vm₂.stack ∧ vm₁.sp = vm₂.sp ∧ vm₁.globals = vm₂.globals ∧
        vm₁.last_popped = vm₂.last_popped) := by
  have hnew : VM.new bc₁ = VM.new bc₂ := by
    unfold VM.new
    rw [h1, h2]
  refine ⟨by rw [hnew], by rw [hnew], fun vm₁ vm₂ hr1 hr2 => ?_⟩
  rw [hnew, hr2] at hr1
  injection hr1 with hr1
  injection hr1 with hr1
  rw [hr1]
  exact ⟨rfl, rfl, rfl, rfl⟩

/-- Witness for `run_deterministic` on the program `True; Pop`. -/
theorem run_deterministic_witness :
    (VM.new ⟨[0x07, 0x02], []⟩).run 3 = (VM.new ⟨[0x07, 0x02], []⟩).run 3 ∧
    finalLastPopped ((VM.new ⟨[0x07, 0x02], []⟩).run 3)
      = finalLastPopped ((VM.new ⟨[0x07, 0x02], []⟩).run 3) := by
  have h := run_deterministic ⟨[0x07, 0x02], []⟩ ⟨[0x07, 0x02], []⟩ 3 rfl rfl
  exact ⟨h.1, h.2.1⟩

end Monkey
